import Mathlib

/- Verification development for the options-backtest repository
   (config.py, data_utils.py, strategy.py, backtest.py, excel_output.py).

   Modelling conventions: prices are rationals; pandas data frames are lists
   of bar records kept in the order the SQL queries produce (an insertion
   sort by the ORDER BY key); the two SQLite databases are a `Dataset`
   giving each date-named table its rows; Python exceptions are `Except`
   errors; Python `None` results are `Option.none`. -/

set_option maxRecDepth 10000

deriving instance DecidableEq for Except

/-- One row of a spot-price table: time of day plus OHLC prices
    (`data_utils.get_spot_data` returns these ordered by time). -/
structure SpotBar where
  time : String
  open_ : ℚ
  high : ℚ
  low : ℚ
  close : ℚ
deriving DecidableEq

/-- One row of an option-price table as returned by
    `data_utils.get_option_data` (time, strike, instrument type PE/CE,
    expiry, OHLC). -/
structure OptBar where
  time : String
  strike : Int
  instrument_type : String
  expiry : String
  open_ : ℚ
  high : ℚ
  low : ℚ
  close : ℚ
deriving DecidableEq

instance : Inhabited OptBar := ⟨⟨"", 0, "", "", 0, 0, 0, 0⟩⟩

/-- The configuration dataclass from config.py, with its default values.
    Fractions are rationals (0.005 = 5/1000, 0.02 = 2/100). -/
structure StrategyConfig where
  entry_time : String := "15:25:00"
  market_open : String := "09:15:00"
  exit_time : String := "09:45:00"
  entry_slippage : ℚ := 5 / 1000
  exit_slippage : ℚ := 5 / 1000
  hedge_distance_pct : ℚ := 2 / 100
  trail_timeframe_minutes : Int := 3
  lot_size : Int := 1
  opt_db_path : String := "Assignment/OPT.db"
  spot_db_path : String := "Assignment/SPOT.db"
  use_sample_data : Bool := false
deriving DecidableEq

/-- The default `StrategyConfig()` used by backtest.py's `main`. -/
def defaultConfig : StrategyConfig := {}

/-- The content of the two SQLite databases: each date-named table's rows,
    and the list of table names of the options database
    (`data_utils.DataManager.get_table_names`). -/
structure Dataset where
  spotTables : String → List SpotBar
  optTables : String → List OptBar
  optTableNames : List String

/-- First minimum of a list under a key, mirroring Python's
    `min(xs, key=f)`: on ties the earliest element wins; `none` on the
    empty list (where Python raises ValueError). -/
def argminBy {α β : Type _} [LinearOrder β] (f : α → β) : List α → Option α
  | [] => none
  | x :: xs => some (xs.foldl (fun best y => if f y < f best then y else best) x)

/-- Numeric key of a 'ddmmyyyy' table name, used to mirror
    `pd.to_datetime(x, format='%d%m%Y')` as a sort key in
    `get_available_dates`. -/
def dateKey (s : String) : Nat :=
  let l := s.toList
  let digits : List Char → Nat := fun cs => cs.foldl (fun a c => a * 10 + (c.toNat - 48)) 0
  digits (l.drop 4) * 10000 + digits ((l.drop 2).take 2) * 100 + digits (l.take 2)

/-- Lexicographic comparison of character lists by code point: the string
    ordering that Python, pandas and SQLite's BINARY collation all use on
    the ASCII time and date strings of this code base. -/
def strLt : List Char → List Char → Bool
  | [], [] => false
  | [], _ :: _ => true
  | _ :: _, [] => false
  | a :: as, b :: bs =>
    if a.toNat < b.toNat then true
    else if b.toNat < a.toNat then false
    else strLt as bs

/-- Lexicographic `a <= b` on strings (see `strLt`). -/
def strLe (a b : String) : Bool := !(strLt b.toList a.toList)

/-- Ordering of option rows produced by `ORDER BY time, strike`. -/
@[reducible] def optRowLe (a b : OptBar) : Prop :=
  strLt a.time.toList b.time.toList = true ∨ (a.time = b.time ∧ a.strike ≤ b.strike)

/-- Ordering of spot rows produced by `ORDER BY time`. -/
@[reducible] def spotRowLe (a b : SpotBar) : Prop := strLe a.time b.time = true

/-- Minimum of a list of strings (Python `min` / pandas `.min()` on a
    string column); junk value `""` on the empty list, which is never
    used because the caller checks emptiness first. -/
def listMinStr : List String → String
  | [] => ""
  | x :: xs => xs.foldl (fun a b => if strLt b.toList a.toList then b else a) x

/-- data_utils.DataManager.get_spot_data: rows of the date's spot table
    with `time BETWEEN start_time AND end_time`, ordered by time. -/
def get_spot_data (ds : Dataset) (date_table start_time end_time : String) : List SpotBar :=
  List.insertionSort spotRowLe
    ((ds.spotTables date_table).filter
      (fun r => strLe start_time r.time && strLe r.time end_time))

/-- data_utils.DataManager.get_option_data: rows of the date's option
    table restricted to 09:15-15:30, optionally filtered by strike and
    instrument type (Python truthiness: strike 0 or empty string disables
    the filter), ordered by time then strike, and restricted to the
    nearest (lexicographically least) expiry when both filters are given
    and the frame is non-empty. -/
def get_option_data (ds : Dataset) (date_table : String)
    (strike : Option Int) (instrument_type : Option String) : List OptBar :=
  let strikeOk : OptBar → Bool := fun r =>
    match strike with
    | some s => if s == 0 then true else r.strike == s
    | none => true
  let instrOk : OptBar → Bool := fun r =>
    match instrument_type with
    | some it => if it == "" then true else r.instrument_type == it
    | none => true
  let df := List.insertionSort optRowLe
    ((ds.optTables date_table).filter
      (fun r => strLe "09:15:00" r.time && strLe r.time "15:30:00"
        && strikeOk r && instrOk r))
  let strikeTruthy : Bool := match strike with | some s => !(s == 0) | none => false
  let instrTruthy : Bool := match instrument_type with | some it => !(it == "") | none => false
  if decide (0 < df.length) && strikeTruthy && instrTruthy then
    let nearest_expiry := listMinStr (df.map (·.expiry))
    df.filter (fun r => r.expiry == nearest_expiry)
  else df

/-- Chronological-by-date ordering of table names. -/
@[reducible] def dateLe (a b : String) : Prop := dateKey a ≤ dateKey b

instance : IsTotal String dateLe := ⟨fun a b => Nat.le_total (dateKey a) (dateKey b)⟩

instance : IsTrans String dateLe := ⟨fun _ _ _ hab hbc => Nat.le_trans hab hbc⟩

/-- data_utils.DataManager.get_available_dates: all option-table names
    sorted by their parsed ddmmyyyy date. -/
def get_available_dates (ds : Dataset) : List String :=
  List.insertionSort dateLe ds.optTableNames

/-- data_utils.DataManager.get_next_trading_day: position of the current
    date in the chronologically sorted list, then the following entry;
    `none` when the date is absent (ValueError) or is the last one. -/
def get_next_trading_day (ds : Dataset) (current_date : String) : Option String :=
  let all_dates := get_available_dates ds
  if current_date ∈ all_dates then
    let current_idx := all_dates.indexOf current_date
    if current_idx < all_dates.length - 1 then all_dates.get? (current_idx + 1) else none
  else none

/-- data_utils.DataManager.get_atm_strike: the available strike closest to
    the spot price, first winner on ties (`min(..., key=abs(x - spot))`);
    a ValueError on the empty list. -/
def get_atm_strike (spot_price : ℚ) (available_strikes : List Int) : Except String Int :=
  match argminBy (fun s : Int => |(s : ℚ) - spot_price|) available_strikes with
  | some s => .ok s
  | none => .error "ValueError: min() arg is an empty sequence"

/-- data_utils.DataManager.get_strikes_by_expiry:
    `SELECT DISTINCT strike ... WHERE expiry = e ORDER BY strike`. -/
def get_strikes_by_expiry (ds : Dataset) (date_table expiry : String) : List Int :=
  List.insertionSort (fun a b : Int => a ≤ b)
    ((((ds.optTables date_table).filter (fun r => r.expiry == expiry)).map (·.strike)).eraseDups)

/-- strategy.OptionsStrategy.analyze_market_movement: close of the first
    bar at/after market open and of the last bar at/before the entry
    time; percentage movement between them; direction "UP" when the
    movement is positive, else "DOWN".  An empty selection raises
    IndexError (pandas `.iloc` on an empty frame). -/
def analyze_market_movement (cfg : StrategyConfig) (spot_df : List SpotBar) :
    Except String (ℚ × ℚ × String) :=
  match (spot_df.filter (fun r => strLe cfg.market_open r.time)).head? with
  | none => .error "IndexError: index 0 is out of bounds"
  | some open_data =>
    match (spot_df.filter (fun r => strLe r.time cfg.entry_time)).getLast? with
    | none => .error "IndexError: index -1 is out of bounds"
    | some entry_data =>
      let open_price := open_data.close
      let entry_price := entry_data.close
      let movement_pct := (entry_price - open_price) / open_price
      let direction := if movement_pct > 0 then "UP" else "DOWN"
      .ok (open_price, entry_price, direction)

/-- Truncation toward zero, mirroring Python's `int()` applied to the
    hedge-target product. -/
def truncQ (q : ℚ) : Int := if q < 0 then -⌊-q⌋ else ⌊q⌋

/-- strategy.OptionsStrategy.get_atm_and_hedge_strikes: ATM strike by
    closest distance to spot; instrument PE for "UP" else CE; truncated
    target `int(atm * (1 ∓ hedge_distance_pct))`; hedge candidates
    strictly below (PE) or above (CE) the ATM strike; hedge strike is the
    candidate closest to the truncated target, or the ATM strike itself
    when no candidate exists. -/
def get_atm_and_hedge_strikes (cfg : StrategyConfig) (spot_price : ℚ)
    (available_strikes : List Int) (direction : String) : Except String (Int × Int) :=
  match get_atm_strike spot_price available_strikes with
  | .error e => .error e
  | .ok atm_strike =>
    let instrument_type := if direction == "UP" then "PE" else "CE"
    let target_hedge : Int :=
      if instrument_type == "PE" then truncQ ((atm_strike : ℚ) * (1 - cfg.hedge_distance_pct))
      else truncQ ((atm_strike : ℚ) * (1 + cfg.hedge_distance_pct))
    let hedge_candidates :=
      if instrument_type == "PE" then available_strikes.filter (fun s => decide (s < atm_strike))
      else available_strikes.filter (fun s => decide (atm_strike < s))
    let hedge_strike :=
      match argminBy (fun s : Int => (s - target_hedge).natAbs) hedge_candidates with
      | none => atm_strike
      | some h => h
    .ok (atm_strike, hedge_strike)

/-- strategy.OptionsStrategy.get_option_price_with_slippage: entry or
    exit slippage fraction selected by `is_entry`; a sale receives
    `price * (1 - slippage)`, a purchase pays `price * (1 + slippage)`. -/
def get_option_price_with_slippage (cfg : StrategyConfig) (price : ℚ)
    (is_entry is_sell : Bool) : ℚ :=
  let slippage := if is_entry then cfg.entry_slippage else cfg.exit_slippage
  if is_sell then price * (1 - slippage) else price * (1 + slippage)

/-- Minimum of a list of rationals; junk 0 on the empty list (callers
    only apply it to non-empty rolling windows). -/
def listMin : List ℚ → ℚ
  | [] => 0
  | x :: xs => xs.foldl min x

/-- Maximum of a list of rationals; junk 0 on the empty list. -/
def listMax : List ℚ → ℚ
  | [] => 0
  | x :: xs => xs.foldl max x

/-- The positional window of `rolling(window=3, min_periods=1)` ending at
    index `i`: elements `max(0, i-2) .. i`. -/
def window3 (l : List ℚ) (i : Nat) : List ℚ := (l.take (i + 1)).drop (i - 2)

/-- The trailing-stop condition of
    strategy.OptionsStrategy.calculate_trailing_exits at bar `i`: for a
    short leg, close above the rolling 3-bar minimum of lows times
    `1 + 0.05`; for a long leg, close below the rolling 3-bar maximum of
    highs times `1 - 0.05` (`buffer_pct = 0.05` is hardcoded). -/
def trailStopTriggered (is_short_position : Bool) (l : List OptBar) (i : Nat) : Bool :=
  if is_short_position then
    let trail := listMin (window3 (l.map (·.low)) i)
    decide ((l.map (·.close)).getD i 0 > trail * (1 + 5 / 100))
  else
    let trail := listMax (window3 (l.map (·.high)) i)
    decide ((l.map (·.close)).getD i 0 < trail * (1 - 5 / 100))

/-- Index of the first bar at which calculate_trailing_exits exits by
    trailing stop: the scan accepts a bar only when `i >= 2` and the stop
    condition holds there. -/
def findTriggerIdx (is_short_position : Bool) (l : List OptBar) : Option Nat :=
  (List.range l.length).find? (fun i => decide (2 ≤ i) && trailStopTriggered is_short_position l i)

/-- strategy.OptionsStrategy.calculate_trailing_exits: "No Data" on an
    empty series; otherwise the first triggering bar's time and close
    with reason "Trail Stop Hit", or the last bar's time and close with
    reason "Time Exit" when no bar triggers.  The `entry_price` argument
    is unused, as in the source. -/
def calculate_trailing_exits (option_df : List OptBar) (entry_price : ℚ)
    (is_short_position : Bool) : Option String × Option ℚ × String :=
  match option_df.getLast? with
  | none => (none, none, "No Data")
  | some last_row =>
    match findTriggerIdx is_short_position option_df with
    | some i =>
      let row := option_df.getD i default
      (some row.time, some row.close, "Trail Stop Hit")
    | none => (some last_row.time, some last_row.close, "Time Exit")

/-- strategy.OptionsStrategy.calculate_independent_exits: the short main
    leg and the long hedge leg are each run through
    calculate_trailing_exits on their own series (the source flattens the
    two triples into one 6-tuple). -/
def calculate_independent_exits (main_df hedge_df : List OptBar)
    (main_entry_price hedge_entry_price : ℚ) :
    (Option String × Option ℚ × String) × (Option String × Option ℚ × String) :=
  (calculate_trailing_exits main_df main_entry_price true,
   calculate_trailing_exits hedge_df hedge_entry_price false)

/-- The Trade dataclass of strategy.py.  The two exit times are optional
    strings because calculate_trailing_exits can in principle hand back
    Python `None` there. -/
structure Trade where
  date : String
  exit_date : String
  entry_time : String
  main_exit_time : Option String
  hedge_exit_time : Option String
  strike : Int
  hedge_strike : Int
  instrument_type : String
  entry_price : ℚ
  exit_price : ℚ
  hedge_entry_price : ℚ
  hedge_exit_price : ℚ
  main_pnl : ℚ
  hedge_pnl : ℚ
  total_pnl : ℚ
  main_pnl_pct : ℚ
  hedge_pnl_pct : ℚ
  total_pnl_pct : ℚ
  entry_reason : String
  main_exit_reason : String
  hedge_exit_reason : String
deriving DecidableEq

/-- The body of strategy.OptionsStrategy.execute_trade, i.e. everything
    inside its `try`: each precondition failure returns `.ok none` (the
    source's early `return None`), an uncaught Python exception is an
    `.error`, and a completed simulation is `.ok (some trade)`. -/
def execute_trade_body (cfg : StrategyConfig) (ds : Dataset) (date : String) :
    Except String (Option Trade) :=
  let spot_df := get_spot_data ds date "09:15:00" "15:30:00"
  if spot_df.length = 0 then .ok none else
  match analyze_market_movement cfg spot_df with
  | .error e => .error e
  | .ok (_open_price, entry_spot, direction) =>
    let option_sample := get_option_data ds date none none
    match option_sample.head? with
    | none => .ok none
    | some sample_row =>
      let expiry := sample_row.expiry
      let available_strikes := get_strikes_by_expiry ds date expiry
      let instrument_type := if direction == "UP" then "PE" else "CE"
      match get_atm_and_hedge_strikes cfg entry_spot available_strikes direction with
      | .error e => .error e
      | .ok (atm_strike, hedge_strike) =>
        let main_option_df := get_option_data ds date (some atm_strike) (some instrument_type)
        let hedge_option_df := get_option_data ds date (some hedge_strike) (some instrument_type)
        if main_option_df.length = 0 then .ok none else
        if hedge_option_df.length = 0 then .ok none else
        let entry_rows := main_option_df.filter (fun r => strLe r.time cfg.entry_time)
        let hedge_entry_rows := hedge_option_df.filter (fun r => strLe r.time cfg.entry_time)
        match entry_rows.getLast? with
        | none => .ok none
        | some entry_row =>
          match hedge_entry_rows.getLast? with
          | none => .ok none
          | some hedge_entry_row =>
            let entry_time := entry_row.time
            let entry_price := get_option_price_with_slippage cfg entry_row.close true true
            let hedge_entry_price :=
              get_option_price_with_slippage cfg hedge_entry_row.close true false
            match get_next_trading_day ds date with
            | none => .ok none
            | some next_date =>
              let next_main_all :=
                get_option_data ds next_date (some atm_strike) (some instrument_type)
              let next_hedge_all :=
                get_option_data ds next_date (some hedge_strike) (some instrument_type)
              if next_main_all.length = 0 then .ok none else
              if next_hedge_all.length = 0 then .ok none else
              let next_main_df := next_main_all.filter (fun r => strLe r.time cfg.exit_time)
              let next_hedge_df := next_hedge_all.filter (fun r => strLe r.time cfg.exit_time)
              if next_main_df.length = 0 then .ok none else
              if next_hedge_df.length = 0 then .ok none else
              let exits :=
                calculate_independent_exits next_main_df next_hedge_df entry_price hedge_entry_price
              match exits.1.2.1, exits.2.2.1 with
              | some main_exit_price_raw, some hedge_exit_price_raw =>
                let main_exit_price :=
                  get_option_price_with_slippage cfg main_exit_price_raw false false
                let hedge_exit_price :=
                  get_option_price_with_slippage cfg hedge_exit_price_raw false true
                let main_pnl := (entry_price - main_exit_price) * (cfg.lot_size : ℚ)
                let hedge_pnl := (hedge_exit_price - hedge_entry_price) * (cfg.lot_size : ℚ)
                let total_pnl := main_pnl + hedge_pnl
                let main_pnl_pct := if entry_price > 0 then main_pnl / entry_price * 100 else 0
                let hedge_pnl_pct :=
                  if hedge_entry_price > 0 then hedge_pnl / hedge_entry_price * 100 else 0
                let total_capital := entry_price + hedge_entry_price
                let total_pnl_pct := if total_capital > 0 then total_pnl / total_capital * 100 else 0
                .ok (some
                  { date := date
                    exit_date := next_date
                    entry_time := entry_time
                    main_exit_time := exits.1.1
                    hedge_exit_time := exits.2.1
                    strike := atm_strike
                    hedge_strike := hedge_strike
                    instrument_type := instrument_type
                    entry_price := entry_price
                    exit_price := main_exit_price
                    hedge_entry_price := hedge_entry_price
                    hedge_exit_price := hedge_exit_price
                    main_pnl := main_pnl
                    hedge_pnl := hedge_pnl
                    total_pnl := total_pnl
                    main_pnl_pct := main_pnl_pct
                    hedge_pnl_pct := hedge_pnl_pct
                    total_pnl_pct := total_pnl_pct
                    entry_reason := "Market " ++ direction ++ ", Sell " ++ instrument_type
                    main_exit_reason := exits.1.2.2
                    hedge_exit_reason := exits.2.2.2 })
              | _, _ => .ok none

/-- strategy.OptionsStrategy.execute_trade: the body runs inside
    `try ... except Exception: return None`, so every error becomes a
    skip and the function totals to an optional Trade. -/
def execute_trade (cfg : StrategyConfig) (ds : Dataset) (date : String) : Option Trade :=
  match execute_trade_body cfg ds date with
  | .ok t => t
  | .error _ => none

/-- backtest.Backtester.run_backtest: every available date is processed
    in order and the non-skipped trades are collected. -/
def run_backtest (cfg : StrategyConfig) (ds : Dataset) : List Trade :=
  (get_available_dates ds).filterMap (fun d => execute_trade cfg ds d)

/-- Modelled from the spec: Policy A of spec section 4.4 ("coupled trail,
    same-direction stop") has no implementation anywhere under src/; this
    definition follows the spec's words so that the engine that the code
    does implement can be compared against it.  Scanning the sorted union
    of both legs' timestamps, at each timestamp shared by both legs it
    compares each leg's close against that leg's rolling 3-bar maximum of
    highs; the first trigger exits both legs there.  Returns, per leg,
    the exit time, exit price and reason. -/
def policyAScan (main_df hedge_df : List OptBar) :
    List String → Option (String × ℚ × ℚ × Bool)
  | [] => none
  | t :: ts =>
    if (main_df.any (fun b => b.time == t)) && (hedge_df.any (fun b => b.time == t)) then
      let mc := ((main_df.find? (fun b => b.time == t)).getD default).close
      let hc := ((hedge_df.find? (fun b => b.time == t)).getD default).close
      let mroll := listMax (((main_df.filter (fun b => strLe b.time t)).map
        (·.high)).reverse.take 3)
      let hroll := listMax (((hedge_df.filter (fun b => strLe b.time t)).map
        (·.high)).reverse.take 3)
      if mc ≥ mroll then some (t, mc, hc, true)
      else if hc ≥ hroll then some (t, mc, hc, false)
      else policyAScan main_df hedge_df ts
    else policyAScan main_df hedge_df ts

/-- Modelled from the spec: the full Policy A exit computation (see
    `policyAScan`); "No Data" when a leg's series is empty, a coupled
    simultaneous exit tagged "Main Trail Stop"/"Hedge Trail Stop" at the
    first trigger, otherwise a per-leg "Time Exit" at each leg's last
    bar. -/
def policyA_exits (main_df hedge_df : List OptBar) :
    (Option String × Option ℚ × String) × (Option String × Option ℚ × String) :=
  match main_df.getLast?, hedge_df.getLast? with
  | some main_last, some hedge_last =>
    let times := List.insertionSort (fun a b : String => strLe a b = true)
      ((main_df.map (·.time) ++ hedge_df.map (·.time)).eraseDups)
    match policyAScan main_df hedge_df times with
    | some (t, mc, hc, is_main) =>
      let reason := if is_main then "Main Trail Stop" else "Hedge Trail Stop"
      ((some t, some mc, reason), (some t, some hc, reason))
    | none =>
      ((some main_last.time, some main_last.close, "Time Exit"),
       (some hedge_last.time, some hedge_last.close, "Time Exit"))
  | _, _ => ((none, none, "No Data"), (none, none, "No Data"))

/-- A two-day dataset on which the simulator completes one trade:
    day 01012024 moves up (UP, sell PE), strikes 98 and 100 trade, and on
    day 02012024 both legs time-exit.  Used to exercise the theorems on a
    concrete run. -/
def dsOk : Dataset where
  spotTables := fun d =>
    if d = "01012024" then
      [⟨"09:15:00", 100, 100, 100, 100⟩, ⟨"15:20:00", 102, 102, 102, 102⟩]
    else []
  optTables := fun d =>
    if d = "01012024" then
      [⟨"15:20:00", 100, "PE", "E1", 10, 10, 10, 10⟩,
       ⟨"15:20:00", 98, "PE", "E1", 5, 5, 5, 5⟩]
    else if d = "02012024" then
      [⟨"09:16:00", 100, "PE", "E1", 10, 10, 10, 10⟩,
       ⟨"09:16:00", 98, "PE", "E1", 5, 5, 5, 5⟩]
    else []
  optTableNames := ["01012024", "02012024"]

/-- The Trade that `execute_trade defaultConfig dsOk "01012024"`
    produces. -/
def tradeOk : Trade where
  date := "01012024"
  exit_date := "02012024"
  entry_time := "15:20:00"
  main_exit_time := some "09:16:00"
  hedge_exit_time := some "09:16:00"
  strike := 100
  hedge_strike := 98
  instrument_type := "PE"
  entry_price := 199 / 20
  exit_price := 201 / 20
  hedge_entry_price := 201 / 40
  hedge_exit_price := 199 / 40
  main_pnl := -1 / 10
  hedge_pnl := -1 / 20
  total_pnl := -3 / 20
  main_pnl_pct := -200 / 199
  hedge_pnl_pct := -200 / 201
  total_pnl_pct := -600 / 599
  entry_reason := "Market UP, Sell PE"
  main_exit_reason := "Time Exit"
  hedge_exit_reason := "Time Exit"

/-- A dataset whose only date has spot bars, but none at or before the
    entry time: `analyze_market_movement` hits the pandas IndexError, the
    Python `except` turns it into a skip. -/
def dsErr : Dataset where
  spotTables := fun d => if d = "01012024" then [⟨"15:28:00", 1, 1, 1, 1⟩] else []
  optTables := fun _ => []
  optTableNames := ["01012024"]


/-- Time-and-close projection of the market-direction computation: the
    same selection and formula as `analyze_market_movement`, but reading
    from (time, close) pairs.  Used to show the classifier touches no
    other bar field. -/
def analyzeTimeClose (cfg : StrategyConfig) (l : List (String × ℚ)) :
    Except String (ℚ × ℚ × String) :=
  match (l.filter (fun r => strLe cfg.market_open r.1)).head? with
  | none => .error "IndexError: index 0 is out of bounds"
  | some open_data =>
    match (l.filter (fun r => strLe r.1 cfg.entry_time)).getLast? with
    | none => .error "IndexError: index -1 is out of bounds"
    | some entry_data =>
      let open_price := open_data.2
      let entry_price := entry_data.2
      let movement_pct := (entry_price - open_price) / open_price
      let direction := if movement_pct > 0 then "UP" else "DOWN"
      .ok (open_price, entry_price, direction)

/-- A day's spot series rising from 100 at the open to 102 at the last
    bar before the decision time. -/
def spotW : List SpotBar :=
  [⟨"09:15:00", 100, 100, 100, 100⟩, ⟨"15:20:00", 102, 102, 102, 102⟩]

/-- The same series as `spotW` in times and closes, with scrambled open,
    high and low fields. -/
def spotWJunk : List SpotBar :=
  [⟨"09:15:00", 7, 999, 1, 100⟩, ⟨"15:20:00", 55, 888, 2, 102⟩]

/-- A short-leg exit window whose third bar closes at 11, above the
    rolling 3-bar low of 10 plus the 5 percent buffer: the trailing stop
    fires exactly at bar index 2. -/
def trigSeries : List OptBar :=
  [⟨"09:15:00", 100, "PE", "E1", 10, 10, 10, 10⟩,
   ⟨"09:16:00", 100, "PE", "E1", 10, 10, 10, 10⟩,
   ⟨"09:17:00", 100, "PE", "E1", 11, 11, 10, 11⟩]

/-- An exit window whose closes never leave the buffer band: no trailing
    stop fires either way. -/
def quietSeries : List OptBar :=
  [⟨"09:15:00", 100, "PE", "E1", 10, 10, 10, 10⟩,
   ⟨"09:16:00", 100, "PE", "E1", 10, 10, 10, 10⟩,
   ⟨"09:17:00", 100, "PE", "E1", 10, 10, 10, 10⟩]

/-- A single flat bar; under the spec's Policy A the shared first
    timestamp already triggers (close equals the rolling high), while the
    implemented engine cannot trigger before the third bar. -/
def oneBar : List OptBar :=
  [⟨"09:15:00", 100, "PE", "E1", 100, 100, 100, 100⟩]

theorem argminBy_eq_none {α β : Type _} [LinearOrder β] (f : α → β) (l : List α) :
    argminBy f l = none ↔ l = [] := by
  cases l <;> simp [argminBy]

theorem argminBy_foldl_mem {α β : Type _} [LinearOrder β] (f : α → β) :
    ∀ (xs : List α) (x : α), xs.foldl (fun best y => if f y < f best then y else best) x ∈ x :: xs
  | [], _ => by simp
  | y :: ys, x => by
    simp only [List.foldl_cons]
    by_cases hc : f y < f x
    · rw [if_pos hc]
      exact List.mem_cons.mpr (Or.inr (argminBy_foldl_mem f ys y))
    · rw [if_neg hc]
      rcases List.mem_cons.mp (argminBy_foldl_mem f ys x) with h' | h'
      · exact List.mem_cons.mpr (Or.inl h')
      · exact List.mem_cons.mpr (Or.inr (List.mem_cons.mpr (Or.inr h')))

theorem argminBy_foldl_le {α β : Type _} [LinearOrder β] (f : α → β) :
    ∀ (xs : List α) (x : α) (b : α), b ∈ x :: xs →
      f (xs.foldl (fun best y => if f y < f best then y else best) x) ≤ f b
  | [], x, b, hb => by
    simp at hb
    simp [hb]
  | y :: ys, x, b, hb => by
    simp only [List.foldl_cons]
    by_cases hc : f y < f x
    · rw [if_pos hc]
      rcases List.mem_cons.mp hb with hbx | hb'
      · rw [hbx]
        exact le_trans (argminBy_foldl_le f ys y y (List.mem_cons_self _ _)) (le_of_lt hc)
      · exact argminBy_foldl_le f ys y b hb'
    · rw [if_neg hc]
      rcases List.mem_cons.mp hb with hbx | hb'
      · rw [hbx]
        exact argminBy_foldl_le f ys x x (List.mem_cons_self _ _)
      · rcases List.mem_cons.mp hb' with hby | hb''
        · rw [hby]
          exact le_trans (argminBy_foldl_le f ys x x (List.mem_cons_self _ _)) (le_of_not_lt hc)
        · exact argminBy_foldl_le f ys x b (List.mem_cons.mpr (Or.inr hb''))

theorem argminBy_mem {α β : Type _} [LinearOrder β] (f : α → β) (l : List α) (a : α)
    (h : argminBy f l = some a) : a ∈ l := by
  cases l with
  | nil => simp [argminBy] at h
  | cons x xs =>
    simp only [argminBy, Option.some.injEq] at h
    exact h ▸ argminBy_foldl_mem f xs x

theorem argminBy_le {α β : Type _} [LinearOrder β] (f : α → β) (l : List α) (a : α)
    (h : argminBy f l = some a) : ∀ b ∈ l, f a ≤ f b := by
  cases l with
  | nil => simp [argminBy] at h
  | cons x xs =>
    simp only [argminBy, Option.some.injEq] at h
    intro b hb
    exact h ▸ argminBy_foldl_le f xs x b hb

theorem argminBy_foldl_first {α β : Type _} [LinearOrder β] (f : α → β) :
    ∀ (xs : List α) (x : α),
      xs.foldl (fun best y => if f y < f best then y else best) x = x ∨
      ∃ l1 l2, xs = l1 ++ (xs.foldl (fun best y => if f y < f best then y else best) x) :: l2 ∧
        f (xs.foldl (fun best y => if f y < f best then y else best) x) < f x ∧
        ∀ c ∈ l1, f (xs.foldl (fun best y => if f y < f best then y else best) x) < f c
  | [], _ => Or.inl rfl
  | y :: ys, x => by
    simp only [List.foldl_cons]
    by_cases hc : f y < f x
    · rw [if_pos hc]
      rcases argminBy_foldl_first f ys y with heq | ⟨l1, l2, hsplit, hlt, hpre⟩
      · right
        refine ⟨[], ys, ?_, ?_, ?_⟩
        · rw [heq]; rfl
        · rw [heq]; exact hc
        · intro c hcm; cases hcm
      · right
        refine ⟨y :: l1, l2, ?_, lt_trans hlt hc, ?_⟩
        · rw [List.cons_append, ← hsplit]
        · intro c hcm
          rcases List.mem_cons.mp hcm with hcy | hcm'
          · rw [hcy]; exact hlt
          · exact hpre c hcm'
    · rw [if_neg hc]
      rcases argminBy_foldl_first f ys x with heq | ⟨l1, l2, hsplit, hlt, hpre⟩
      · exact Or.inl heq
      · right
        refine ⟨y :: l1, l2, ?_, hlt, ?_⟩
        · rw [List.cons_append, ← hsplit]
        · intro c hcm
          rcases List.mem_cons.mp hcm with hcy | hcm'
          · rw [hcy]; exact lt_of_lt_of_le hlt (le_of_not_lt hc)
          · exact hpre c hcm'

theorem argminBy_first {α β : Type _} [LinearOrder β] (f : α → β) (l : List α) (a : α)
    (h : argminBy f l = some a) :
    ∃ pre post, l = pre ++ a :: post ∧ (∀ c ∈ pre, f a < f c) ∧ ∀ c ∈ l, f a ≤ f c := by
  cases l with
  | nil => simp [argminBy] at h
  | cons x xs =>
    simp only [argminBy, Option.some.injEq] at h
    subst h
    refine ?_
    have hle : ∀ c ∈ x :: xs,
        f (xs.foldl (fun best y => if f y < f best then y else best) x) ≤ f c :=
      fun c hc => argminBy_foldl_le f xs x c hc
    rcases argminBy_foldl_first f xs x with heq | ⟨l1, l2, hsplit, hltx, hpre⟩
    · refine ⟨[], xs, ?_, ?_, hle⟩
      · rw [heq]; rfl
      · intro c hcm; cases hcm
    · refine ⟨x :: l1, l2, ?_, ?_, hle⟩
      · rw [List.cons_append, ← hsplit]
      · intro c hcm
        rcases List.mem_cons.mp hcm with hcy | hcm'
        · rw [hcy]; exact hltx
        · exact hpre c hcm'

/-- C6: the slippage model is the pure function selecting the entry or
    exit fraction by `is_entry` and moving the price down for a sale and
    up for a purchase; for a non-negative raw price and positive slippage
    fractions the sale price never exceeds the raw price and the purchase
    price never falls below it, at entry and at exit alike. -/
theorem claim_C6_slippage_model (cfg : StrategyConfig) (price : ℚ)
    (hp : 0 ≤ price) (he : 0 < cfg.entry_slippage) (hx : 0 < cfg.exit_slippage) :
    (∀ is_entry is_sell : Bool,
      get_option_price_with_slippage cfg price is_entry is_sell =
        (if is_sell then
          price * (1 - (if is_entry then cfg.entry_slippage else cfg.exit_slippage))
        else
          price * (1 + (if is_entry then cfg.entry_slippage else cfg.exit_slippage)))) ∧
    (∀ is_entry : Bool,
      get_option_price_with_slippage cfg price is_entry true ≤ price ∧
      price ≤ get_option_price_with_slippage cfg price is_entry false) := by
  constructor
  · intro is_entry is_sell
    rfl
  · intro is_entry
    have hs : (0 : ℚ) < (if is_entry then cfg.entry_slippage else cfg.exit_slippage) := by
      cases is_entry
      · simpa using hx
      · simpa using he
    have hps : 0 ≤ price * (if is_entry then cfg.entry_slippage else cfg.exit_slippage) :=
      mul_nonneg hp (le_of_lt hs)
    constructor
    · show price * (1 - (if is_entry then cfg.entry_slippage else cfg.exit_slippage)) ≤ price
      nlinarith
    · show price ≤ price * (1 + (if is_entry then cfg.entry_slippage else cfg.exit_slippage))
      nlinarith

/-- Witness for C6 at the default configuration and a raw price of 100:
    selling receives at most 100 and buying pays at least 100. -/
theorem claim_C6_witness :
    get_option_price_with_slippage defaultConfig 100 true true ≤ 100 ∧
    (100 : ℚ) ≤ get_option_price_with_slippage defaultConfig 100 true false :=
  (claim_C6_slippage_model defaultConfig 100 (by norm_num)
    (by norm_num [defaultConfig]) (by norm_num [defaultConfig])).2 true

/-- C7: whenever the spot series has a bar at or after the session open
    and a bar at or before the decision time, the classifier returns the
    close of the first such bar, the close of the last such bar, and the
    direction "UP" exactly when the computed relative movement is
    positive; in particular a zero movement is classified "DOWN". -/
theorem claim_C7_direction_classifier (cfg : StrategyConfig) (spot_df : List SpotBar)
    (open_data entry_data : SpotBar)
    (h1 : (spot_df.filter (fun r => strLe cfg.market_open r.time)).head? = some open_data)
    (h2 : (spot_df.filter (fun r => strLe r.time cfg.entry_time)).getLast? = some entry_data) :
    analyze_market_movement cfg spot_df =
      .ok (open_data.close, entry_data.close,
        if (entry_data.close - open_data.close) / open_data.close > 0 then "UP" else "DOWN") ∧
    ((entry_data.close - open_data.close) / open_data.close = 0 →
      analyze_market_movement cfg spot_df = .ok (open_data.close, entry_data.close, "DOWN")) := by
  have hmain : analyze_market_movement cfg spot_df =
      .ok (open_data.close, entry_data.close,
        if (entry_data.close - open_data.close) / open_data.close > 0 then "UP" else "DOWN") := by
    unfold analyze_market_movement
    rw [h1, h2]
  refine ⟨hmain, fun h0 => ?_⟩
  rw [hmain, if_neg]
  rw [h0]
  exact lt_irrefl 0

/-- Witness for C7 on a series that opens at 100 and stands at 102 at the
    decision time. -/
theorem claim_C7_witness :
    analyze_market_movement defaultConfig spotW =
      .ok (100, 102, if ((102 : ℚ) - 100) / 100 > 0 then "UP" else "DOWN") :=
  (claim_C7_direction_classifier defaultConfig spotW
    ⟨"09:15:00", 100, 100, 100, 100⟩ ⟨"15:20:00", 102, 102, 102, 102⟩ rfl rfl).1

/-- The classifier factors through the (time, close) projection of the
    spot series: it is `analyzeTimeClose` after forgetting the open, high
    and low fields. -/
theorem analyze_market_movement_eq_timeClose (cfg : StrategyConfig) (spot_df : List SpotBar) :
    analyze_market_movement cfg spot_df =
      analyzeTimeClose cfg (spot_df.map (fun r => (r.time, r.close))) := by
  have e1 : ((spot_df.map (fun r => (r.time, r.close))).filter
        (fun r => strLe cfg.market_open r.1)) =
      (spot_df.filter (fun r => strLe cfg.market_open r.time)).map
        (fun r => (r.time, r.close)) := List.filter_map _ _
  have e2 : ((spot_df.map (fun r => (r.time, r.close))).filter
        (fun r => strLe r.1 cfg.entry_time)) =
      (spot_df.filter (fun r => strLe r.time cfg.entry_time)).map
        (fun r => (r.time, r.close)) := List.filter_map _ _
  unfold analyze_market_movement analyzeTimeClose
  rw [e1, e2, List.head?_map, List.getLast?_map]
  cases (spot_df.filter (fun r => strLe cfg.market_open r.time)).head? with
  | none => rfl
  | some open_data =>
    cases (spot_df.filter (fun r => strLe r.time cfg.entry_time)).getLast? with
    | none => rfl
    | some entry_data => rfl

/-- C9: the classifier reads only the time and close fields of the spot
    bars - two series agreeing on (time, close) classify identically, so
    the open, high and low fields never affect the result - and on the
    selected bars it returns their close values. -/
theorem claim_C9_classifier_reads_close_only (cfg : StrategyConfig) (s1 s2 : List SpotBar)
    (hmap : s1.map (fun r => (r.time, r.close)) = s2.map (fun r => (r.time, r.close))) :
    analyze_market_movement cfg s1 = analyze_market_movement cfg s2 ∧
    (∀ open_data entry_data : SpotBar,
      (s1.filter (fun r => strLe cfg.market_open r.time)).head? = some open_data →
      (s1.filter (fun r => strLe r.time cfg.entry_time)).getLast? = some entry_data →
      analyze_market_movement cfg s1 =
        .ok (open_data.close, entry_data.close,
          if (entry_data.close - open_data.close) / open_data.close > 0 then "UP" else "DOWN")) := by
  constructor
  · rw [analyze_market_movement_eq_timeClose, analyze_market_movement_eq_timeClose, hmap]
  · intro open_data entry_data h1 h2
    unfold analyze_market_movement
    rw [h1, h2]

/-- Witness for C9: scrambling the open, high and low fields of `spotW`
    leaves the classification unchanged. -/
theorem claim_C9_witness :
    analyze_market_movement defaultConfig spotW =
      analyze_market_movement defaultConfig spotWJunk :=
  (claim_C9_classifier_reads_close_only defaultConfig spotW spotWJunk rfl).1

/-- A "Trail Stop Hit" result always comes from the scan accepting some
    bar index at least 2, and the reported exit is that bar's time and
    close. -/
theorem trail_stop_hit_inv (l : List OptBar) (p : ℚ) (b : Bool)
    (h : (calculate_trailing_exits l p b).2.2 = "Trail Stop Hit") :
    ∃ i, 2 ≤ i ∧ i < l.length ∧
      (calculate_trailing_exits l p b).1 = some ((l.getD i default).time) ∧
      (calculate_trailing_exits l p b).2.1 = some ((l.getD i default).close) := by
  unfold calculate_trailing_exits at h ⊢
  split at h
  · exact absurd h (by decide)
  · split at h
    · rename_i xo last_row hlast xi i hfind
      refine ⟨i, ?_, ?_, rfl, rfl⟩
      · have hp := List.find?_some ((by simpa [findTriggerIdx] using hfind) :
          (List.range l.length).find?
            (fun j => decide (2 ≤ j) && trailStopTriggered b l j) = some i)
        simp only [Bool.and_eq_true, decide_eq_true_eq] at hp
        exact hp.1
      · have hm := List.mem_of_find?_eq_some ((by simpa [findTriggerIdx] using hfind) :
          (List.range l.length).find?
            (fun j => decide (2 ≤ j) && trailStopTriggered b l j) = some i)
        exact List.mem_range.mp hm
    · have h' : ("Time Exit" : String) = "Trail Stop Hit" := h
      exact absurd h' (by decide)

/-- C3: under the implemented (independent, side-aware) exit engine,
    neither leg ever exits by trailing stop before the third observed bar
    of its exit window: a "Trail Stop Hit" reason on either leg pins the
    exit to a bar of index at least 2 of that leg's own series. -/
theorem claim_C3_no_trail_exit_before_third_bar (main_df hedge_df : List OptBar)
    (p1 p2 : ℚ) :
    ((calculate_independent_exits main_df hedge_df p1 p2).1.2.2 = "Trail Stop Hit" →
      ∃ i, 2 ≤ i ∧ i < main_df.length ∧
        (calculate_independent_exits main_df hedge_df p1 p2).1.1 =
          some ((main_df.getD i default).time)) ∧
    ((calculate_independent_exits main_df hedge_df p1 p2).2.2.2 = "Trail Stop Hit" →
      ∃ i, 2 ≤ i ∧ i < hedge_df.length ∧
        (calculate_independent_exits main_df hedge_df p1 p2).2.1 =
          some ((hedge_df.getD i default).time)) := by
  constructor
  · intro h
    obtain ⟨i, h2, hlen, ht, _⟩ := trail_stop_hit_inv main_df p1 true h
    exact ⟨i, h2, hlen, ht⟩
  · intro h
    obtain ⟨i, h2, hlen, ht, _⟩ := trail_stop_hit_inv hedge_df p2 false h
    exact ⟨i, h2, hlen, ht⟩

unseal Rat.mul Rat.add Rat.sub Rat.inv Rat.ofScientific in
/-- Witness for C3: on `trigSeries` the short leg's stop fires, and the
    theorem places the exit at a bar index of at least 2. -/
theorem claim_C3_witness :
    ∃ i, 2 ≤ i ∧ i < trigSeries.length ∧
      (calculate_independent_exits trigSeries quietSeries 10 5).1.1 =
        some ((trigSeries.getD i default).time) :=
  (claim_C3_no_trail_exit_before_third_bar trigSeries quietSeries 10 5).1 (by decide)

/-- C8: a non-empty exit window on which the trailing-stop condition
    holds at no eligible bar makes that leg exit at its own last bar, at
    that bar's close, with reason "Time Exit"; and inside
    `calculate_independent_exits` each leg's result is exactly
    `calculate_trailing_exits` of its own series (short for the main leg,
    long for the hedge leg), never depending on the other series. -/
theorem claim_C8_time_exit_at_last_bar (l : List OptBar) (p : ℚ) (b : Bool)
    (hl : l ≠ [])
    (hnt : ∀ i, i < l.length → 2 ≤ i → trailStopTriggered b l i = false) :
    calculate_trailing_exits l p b =
      (some ((l.getLast hl).time), some ((l.getLast hl).close), "Time Exit") ∧
    (∀ (other : List OptBar) (p2 : ℚ),
      (calculate_independent_exits l other p p2).1 = calculate_trailing_exits l p true ∧
      (calculate_independent_exits other l p2 p).2 = calculate_trailing_exits l p false) := by
  have hfind : findTriggerIdx b l = none := by
    unfold findTriggerIdx
    rw [List.find?_eq_none]
    intro i hi
    have hilen : i < l.length := List.mem_range.mp hi
    by_cases h2 : 2 ≤ i
    · simp [hnt i hilen h2]
    · simp [h2]
  constructor
  · unfold calculate_trailing_exits
    rw [List.getLast?_eq_getLast l hl, hfind]
  · intro other p2
    exact ⟨rfl, rfl⟩

unseal Rat.mul Rat.add Rat.sub Rat.inv Rat.ofScientific in
/-- Witness for C8: the flat series `quietSeries` never triggers, so the
    short leg exits at its final bar with a "Time Exit". -/
theorem claim_C8_witness :
    calculate_trailing_exits quietSeries 10 true =
      (some "09:17:00", some 10, "Time Exit") :=
  (claim_C8_time_exit_at_last_bar quietSeries 10 true (by decide)
    (by
      intro i h1 h2
      have hi2 : i = 2 := by
        simp [quietSeries] at h1
        omega
      subst hi2
      decide)).1

/-- C2 (amended): the hedge strike returned by the strike selector is, on
    the PE side, the candidate strictly below the ATM strike closest to
    the truncated target `int(atm * (1 - offset))` (and symmetrically
    above for CE, with target `int(atm * (1 + offset))`), and among
    equally close candidates the earliest in candidate order - every
    candidate listed before the result is strictly farther from the
    target; since the source enumerates strikes ascending, that is the
    lowest tied strike.  When no candidate exists on the required side
    the hedge strike degenerates to the ATM strike.  The distance is
    measured to the truncated integer target, not to the real-valued
    product. -/
theorem claim_C2_amended_hedge_nearest_truncated_target (cfg : StrategyConfig)
    (spot_price : ℚ) (available_strikes : List Int) (direction : String)
    (atm_strike hedge_strike : Int)
    (h : get_atm_and_hedge_strikes cfg spot_price available_strikes direction =
      .ok (atm_strike, hedge_strike)) :
    let instrument_type := if direction == "UP" then "PE" else "CE"
    let target_hedge : Int :=
      if instrument_type == "PE" then truncQ ((atm_strike : ℚ) * (1 - cfg.hedge_distance_pct))
      else truncQ ((atm_strike : ℚ) * (1 + cfg.hedge_distance_pct))
    let hedge_candidates :=
      if instrument_type == "PE" then
        available_strikes.filter (fun s => decide (s < atm_strike))
      else available_strikes.filter (fun s => decide (atm_strike < s))
    (hedge_candidates = [] → hedge_strike = atm_strike) ∧
    (hedge_candidates ≠ [] →
      hedge_strike ∈ hedge_candidates ∧
      (∃ pre post, hedge_candidates = pre ++ hedge_strike :: post ∧
        ∀ c ∈ pre,
          (hedge_strike - target_hedge).natAbs < (c - target_hedge).natAbs) ∧
      ∀ c ∈ hedge_candidates,
        (hedge_strike - target_hedge).natAbs ≤ (c - target_hedge).natAbs) := by
  intro instrument_type target_hedge hedge_candidates
  unfold get_atm_and_hedge_strikes at h
  cases ha : get_atm_strike spot_price available_strikes with
  | error e => rw [ha] at h; exact absurd h (by simp)
  | ok atm =>
    rw [ha] at h
    simp only [Except.ok.injEq, Prod.mk.injEq] at h
    obtain ⟨rfl, hh⟩ := h
    cases hc : argminBy (fun s : Int => (s - target_hedge).natAbs) hedge_candidates with
    | none =>
      have hnil : hedge_candidates = [] := (argminBy_eq_none _ _).mp hc
      rw [hc] at hh
      exact ⟨fun _ => hh.symm, fun hne => absurd hnil hne⟩
    | some hs =>
      rw [hc] at hh
      refine ⟨fun hnil => ?_, fun _ => ?_⟩
      · rw [hnil] at hc
        simp [argminBy] at hc
      · subst hh
        obtain ⟨pre, post, hsplit, hpre, hmin⟩ := argminBy_first _ _ _ hc
        exact ⟨argminBy_mem _ _ _ hc, ⟨pre, post, hsplit, hpre⟩, hmin⟩

unseal Rat.mul Rat.add Rat.sub Rat.inv Rat.ofScientific in
/-- Counterexample to C2 as stated: with spot 75, strikes {72, 74, 75}
    and direction UP, the code returns hedge strike 72, yet candidate 74
    lies strictly below the ATM strike 75 and is strictly closer to the
    claim's real-valued target 75 * (1 - 0.02) = 73.5.  The code measures
    distance to the truncated target int(73.5) = 73, under which 72 and
    74 tie and the first candidate wins. -/
theorem claim_C2_counterexample :
    get_atm_and_hedge_strikes defaultConfig 75 [72, 74, 75] "UP" = .ok (75, 72) ∧
    (74 : Int) ∈ [72, 74, 75].filter (fun s => decide (s < 75)) ∧
    |(74 : ℚ) - 75 * (1 - defaultConfig.hedge_distance_pct)| <
      |(72 : ℚ) - 75 * (1 - defaultConfig.hedge_distance_pct)| := by
  refine ⟨by decide, by decide, ?_⟩
  rw [abs_of_pos (by norm_num [defaultConfig]), abs_of_neg (by norm_num [defaultConfig])]
  norm_num [defaultConfig]

unseal Rat.mul Rat.add Rat.sub Rat.inv Rat.ofScientific in
/-- Witness for the amended C2 at the tie input itself: with spot 75 over
    strikes {72, 74, 75} the candidates 72 and 74 are equally far from
    the truncated target 73, and the theorem pins the result to the
    earliest candidate 72 - every candidate before it (none) is strictly
    farther, and no candidate is closer. -/
theorem claim_C2_witness :
    get_atm_and_hedge_strikes defaultConfig 75 [72, 74, 75] "UP" = .ok (75, 72) ∧
    (72 : Int) ∈ [72, 74, 75].filter (fun s => decide (s < (75 : Int))) ∧
    (∃ pre post,
      [72, 74, 75].filter (fun s => decide (s < (75 : Int))) = pre ++ (72 : Int) :: post ∧
      ∀ c ∈ pre,
        ((72 : Int) - truncQ ((75 : ℚ) * (1 - defaultConfig.hedge_distance_pct))).natAbs <
          (c - truncQ ((75 : ℚ) * (1 - defaultConfig.hedge_distance_pct))).natAbs) ∧
    ∀ c ∈ [72, 74, 75].filter (fun s => decide (s < (75 : Int))),
      ((72 : Int) - truncQ ((75 : ℚ) * (1 - defaultConfig.hedge_distance_pct))).natAbs ≤
        (c - truncQ ((75 : ℚ) * (1 - defaultConfig.hedge_distance_pct))).natAbs := by
  have h : get_atm_and_hedge_strikes defaultConfig 75 [72, 74, 75] "UP" = .ok (75, 72) := by
    decide
  have hc := claim_C2_amended_hedge_nearest_truncated_target defaultConfig 75
    [72, 74, 75] "UP" 75 72 h
  exact ⟨h, (hc.2 (by decide)).1, (hc.2 (by decide)).2.1, (hc.2 (by decide)).2.2⟩

/-- C4: the per-date simulation is total - every uncaught error raised by
    a simulation step is turned into a skip (`none`) by the
    `try/except` boundary, the result is always either one Trade or no
    result, and the backtest loop over all dates is exactly the
    collection of these optional results, so no date can abort it. -/
theorem claim_C4_errors_become_skips (cfg : StrategyConfig) (ds : Dataset) (d : String) :
    (∀ e, execute_trade_body cfg ds d = .error e → execute_trade cfg ds d = none) ∧
    (execute_trade cfg ds d = none ∨ ∃ t, execute_trade cfg ds d = some t) ∧
    run_backtest cfg ds = (get_available_dates ds).filterMap (fun d0 => execute_trade cfg ds d0) := by
  refine ⟨?_, ?_, rfl⟩
  · intro e he
    unfold execute_trade
    rw [he]
  · cases h : execute_trade cfg ds d with
    | none => exact Or.inl rfl
    | some t => exact Or.inr ⟨t, rfl⟩

/-- Witness for C4: on `dsErr` the simulation body raises the pandas
    IndexError, and the caught result is a skip. -/
theorem claim_C4_witness :
    execute_trade_body defaultConfig dsErr "01012024" =
      .error "IndexError: index -1 is out of bounds" ∧
    execute_trade defaultConfig dsErr "01012024" = none := by
  have herr : execute_trade_body defaultConfig dsErr "01012024" =
      .error "IndexError: index -1 is out of bounds" := rfl
  exact ⟨herr, (claim_C4_errors_become_skips defaultConfig dsErr "01012024").1 _ herr⟩

set_option maxHeartbeats 2000000 in
/-- Inversion of a successful simulation: a produced Trade fixes the next
    trading day as its exit date, carries its entry date, and takes each
    leg's exit time and reason from the independent side-aware trailing
    computation over that leg's own exit-window series. -/
theorem execute_trade_some_inv (cfg : StrategyConfig) (ds : Dataset) (d : String) (t : Trade)
    (h : execute_trade cfg ds d = some t) :
    ∃ (next_date : String) (atm_strike hedge_strike : Int) (instrument_type : String)
      (p1 p2 : ℚ),
      get_next_trading_day ds d = some next_date ∧
      t.date = d ∧ t.exit_date = next_date ∧
      (t.main_exit_time, t.main_exit_reason) =
        ((calculate_trailing_exits ((get_option_data ds next_date (some atm_strike)
            (some instrument_type)).filter (fun r => strLe r.time cfg.exit_time)) p1 true).1,
         (calculate_trailing_exits ((get_option_data ds next_date (some atm_strike)
            (some instrument_type)).filter (fun r => strLe r.time cfg.exit_time)) p1 true).2.2) ∧
      (t.hedge_exit_time, t.hedge_exit_reason) =
        ((calculate_trailing_exits ((get_option_data ds next_date (some hedge_strike)
            (some instrument_type)).filter (fun r => strLe r.time cfg.exit_time)) p2 false).1,
         (calculate_trailing_exits ((get_option_data ds next_date (some hedge_strike)
            (some instrument_type)).filter (fun r => strLe r.time cfg.exit_time)) p2 false).2.2) := by
  unfold execute_trade at h
  cases hb : execute_trade_body cfg ds d with
  | error e => rw [hb] at h; exact absurd h (by simp)
  | ok o =>
    rw [hb] at h
    subst h
    simp only [execute_trade_body] at hb
    repeat' split at hb
    all_goals
      first
      | (simp only [Except.ok.injEq, Option.some.injEq] at hb
         subst hb
         exact ⟨_, _, _, _, _, _, by assumption, rfl, rfl, rfl, rfl⟩)
      | simp at hb

/-- The available-dates list is sorted by the parsed date key. -/
theorem get_available_dates_sorted (ds : Dataset) :
    (get_available_dates ds).Sorted dateLe :=
  List.sorted_insertionSort dateLe ds.optTableNames

/-- When the parsed date keys of the dataset's tables are pairwise
    distinct, `get_next_trading_day` returns exactly the chronologically
    next available date: a member of the date list, strictly later than
    the current date, and no later than any other strictly later date. -/
theorem get_next_trading_day_spec (ds : Dataset) (d nd : String)
    (hk : ((get_available_dates ds).map dateKey).Nodup)
    (h : get_next_trading_day ds d = some nd) :
    nd ∈ get_available_dates ds ∧ dateKey d < dateKey nd ∧
      ∀ d' ∈ get_available_dates ds, dateKey d < dateKey d' → dateKey nd ≤ dateKey d' := by
  simp only [get_next_trading_day] at h
  split at h
  case isFalse => exact absurd h (by simp)
  case isTrue hmem =>
    split at h
    case isFalse => exact absurd h (by simp)
    case isTrue hidx =>
      set s := get_available_dates ds with hs
      have hsorted : s.Pairwise dateLe := get_available_dates_sorted ds
      have hpg := List.pairwise_iff_get.mp hsorted
      have hkey : ∀ i j : Fin s.length, i ≠ j → dateKey (s.get i) ≠ dateKey (s.get j) := by
        intro i j hij
        have hinj := List.nodup_iff_injective_get.mp hk
        intro hkeq
        have hlen : ∀ k : Fin s.length, (k : ℕ) < (s.map dateKey).length := by
          intro k; simpa using k.isLt
        have h1 : (s.map dateKey).get ⟨i, hlen i⟩ = dateKey (s.get i) := by
          simp
        have h2 : (s.map dateKey).get ⟨j, hlen j⟩ = dateKey (s.get j) := by
          simp
        have : (⟨i, hlen i⟩ : Fin (s.map dateKey).length) = ⟨j, hlen j⟩ :=
          hinj (by rw [h1, h2, hkeq])
        have hval : (i : ℕ) = (j : ℕ) := by simpa [Fin.ext_iff] using this
        exact hij (Fin.ext hval)
      have hi : s.indexOf d < s.length := List.indexOf_lt_length.mpr hmem
      have hi1 : s.indexOf d + 1 < s.length := by omega
      have hgetd : s.get ⟨s.indexOf d, hi⟩ = d := List.indexOf_get hi
      have hgetnd : s.get ⟨s.indexOf d + 1, hi1⟩ = nd := by
        have := List.get?_eq_get hi1 (l := s)
        rw [this] at h
        exact Option.some.inj h
      refine ⟨?_, ?_, ?_⟩
      · rw [← hgetnd]; exact List.get_mem s _ _
      · have hle : dateLe (s.get ⟨s.indexOf d, hi⟩) (s.get ⟨s.indexOf d + 1, hi1⟩) :=
          hpg _ _ (by simp)
        have hne : dateKey (s.get ⟨s.indexOf d, hi⟩) ≠ dateKey (s.get ⟨s.indexOf d + 1, hi1⟩) :=
          hkey _ _ (by simp [Fin.ext_iff])
        rw [hgetd, hgetnd] at hle hne
        exact lt_of_le_of_ne hle hne
      · intro d' hd' hlt
        obtain ⟨j, hj⟩ := List.mem_iff_get.mp hd'
        rcases Nat.lt_trichotomy (j : ℕ) (s.indexOf d) with hc | hc | hc
        · exfalso
          have hle : dateLe (s.get j) (s.get ⟨s.indexOf d, hi⟩) := hpg _ _ (by simpa)
          rw [hj, hgetd] at hle
          exact absurd hlt (not_lt_of_le hle)
        · exfalso
          have : s.get j = d := by
            rw [← hgetd]; congr 1; exact Fin.ext (by simpa using hc)
          rw [this] at hj
          rw [← hj] at hlt
          exact lt_irrefl _ hlt
        · rcases Nat.lt_or_ge (s.indexOf d + 1) (j : ℕ) with hc2 | hc2
          · have hle : dateLe (s.get ⟨s.indexOf d + 1, hi1⟩) (s.get j) := hpg _ _ (by simpa)
            rw [hj, hgetnd] at hle
            exact hle
          · have : (j : ℕ) = s.indexOf d + 1 := by omega
            have : s.get j = nd := by
              rw [← hgetnd]; congr 1; exact Fin.ext (by simpa using this)
            rw [this] at hj
            rw [hj]

/-- C5: assuming the dataset's table names parse to pairwise distinct
    date keys, every produced Trade has entry date equal to the processed
    date and exit date equal to the chronologically next available
    trading date (a member of the dataset, strictly later, and no later
    than any other strictly later date); a date with no strictly later
    date in the dataset produces no Trade; and the available-dates list
    is chronologically sorted. -/
theorem claim_C5_exit_date_is_next_trading_day (cfg : StrategyConfig) (ds : Dataset)
    (d : String) (hk : ((get_available_dates ds).map dateKey).Nodup) :
    (∀ t : Trade, execute_trade cfg ds d = some t →
      t.date = d ∧
      t.exit_date ∈ get_available_dates ds ∧
      dateKey d < dateKey t.exit_date ∧
      ∀ d' ∈ get_available_dates ds, dateKey d < dateKey d' →
        dateKey t.exit_date ≤ dateKey d') ∧
    ((∀ d' ∈ get_available_dates ds, ¬ dateKey d < dateKey d') →
      execute_trade cfg ds d = none) ∧
    (get_available_dates ds).Sorted dateLe := by
  refine ⟨?_, ?_, get_available_dates_sorted ds⟩
  · intro t ht
    obtain ⟨nd, _, _, _, _, _, hnext, hdate, hexit, _, _⟩ :=
      execute_trade_some_inv cfg ds d t ht
    have hspec := get_next_trading_day_spec ds d nd hk hnext
    exact ⟨hdate, hexit ▸ hspec.1, hexit ▸ hspec.2.1, hexit ▸ hspec.2.2⟩
  · intro hnone
    cases ht : execute_trade cfg ds d with
    | none => rfl
    | some t =>
      obtain ⟨nd, _, _, _, _, _, hnext, _, _, _, _⟩ :=
        execute_trade_some_inv cfg ds d t ht
      have hspec := get_next_trading_day_spec ds d nd hk hnext
      exact absurd hspec.2.1 (hnone nd hspec.1)

unseal Rat.mul Rat.add Rat.sub Rat.inv Rat.ofScientific in
/-- The concrete two-day run: the simulator produces exactly `tradeOk`
    on the first date of `dsOk`. -/
theorem execute_trade_dsOk_eq : execute_trade defaultConfig dsOk "01012024" = some tradeOk := by
  decide

/-- Witness for C5: the trade produced on 01012024 exits on 02012024,
    the strictly later member of the dataset. -/
theorem claim_C5_witness :
    tradeOk.date = "01012024" ∧
    tradeOk.exit_date ∈ get_available_dates dsOk ∧
    dateKey "01012024" < dateKey tradeOk.exit_date :=
  have h := (claim_C5_exit_date_is_next_trading_day defaultConfig dsOk "01012024"
    (by decide)).1 tradeOk execute_trade_dsOk_eq
  ⟨h.1, h.2.1, h.2.2.1⟩

unseal Rat.mul Rat.add Rat.sub Rat.inv Rat.ofScientific in
/-- Counterexample to C1 as stated: the code base contains exactly one
    exit behaviour.  On two identical one-bar legs the spec's Policy A
    (modelled in `policyA_exits`) exits both legs at once with reason
    "Main Trail Stop", while the implemented engine (which takes no
    policy selector and ignores the configuration) time-exits: no
    configuration value can make the simulator produce Policy A's
    result. -/
theorem claim_C1_counterexample :
    (calculate_independent_exits oneBar oneBar 100 100).1.2.2 = "Time Exit" ∧
    (policyA_exits oneBar oneBar).1.2.2 = "Main Trail Stop" ∧
    calculate_independent_exits oneBar oneBar 100 100 ≠ policyA_exits oneBar oneBar := by
  decide

/-- C1 (amended): the exit engine is not polymorphic over a configured
    exit policy - `StrategyConfig` has no exit-policy selector and the
    engine reads no configuration - and the simulator always applies the
    single implemented policy, the independent side-aware trail
    (Policy B), to each leg's own exit-window series: the engine result
    is componentwise `calculate_trailing_exits` (short for main, long for
    hedge), and every produced Trade's per-leg exit time and reason come
    from that computation. -/
theorem claim_C1_amended_policyB_only (cfg : StrategyConfig) (ds : Dataset) (d : String)
    (t : Trade) (h : execute_trade cfg ds d = some t) :
    (∀ (m hdf : List OptBar) (q1 q2 : ℚ),
      calculate_independent_exits m hdf q1 q2 =
        (calculate_trailing_exits m q1 true, calculate_trailing_exits hdf q2 false)) ∧
    ∃ (next_date : String) (atm_strike hedge_strike : Int) (instrument_type : String)
      (p1 p2 : ℚ),
      (t.main_exit_time, t.main_exit_reason) =
        ((calculate_trailing_exits ((get_option_data ds next_date (some atm_strike)
            (some instrument_type)).filter (fun r => strLe r.time cfg.exit_time)) p1 true).1,
         (calculate_trailing_exits ((get_option_data ds next_date (some atm_strike)
            (some instrument_type)).filter (fun r => strLe r.time cfg.exit_time)) p1 true).2.2) ∧
      (t.hedge_exit_time, t.hedge_exit_reason) =
        ((calculate_trailing_exits ((get_option_data ds next_date (some hedge_strike)
            (some instrument_type)).filter (fun r => strLe r.time cfg.exit_time)) p2 false).1,
         (calculate_trailing_exits ((get_option_data ds next_date (some hedge_strike)
            (some instrument_type)).filter (fun r => strLe r.time cfg.exit_time)) p2 false).2.2) := by
  refine ⟨fun m hdf q1 q2 => rfl, ?_⟩
  obtain ⟨nd, atm, hs, instr, p1, p2, _, _, _, hmain, hhedge⟩ :=
    execute_trade_some_inv cfg ds d t h
  exact ⟨nd, atm, hs, instr, p1, p2, hmain, hhedge⟩

/-- Witness for the amended C1 on the concrete run over `dsOk`: the
    engine is componentwise Policy B, and the produced trade's exit
    fields come from the per-leg trailing computation. -/
theorem claim_C1_witness :
    calculate_independent_exits trigSeries quietSeries 1 1 =
      (calculate_trailing_exits trigSeries 1 true,
       calculate_trailing_exits quietSeries 1 false) ∧
    ∃ (next_date : String) (atm_strike hedge_strike : Int) (instrument_type : String)
      (p1 p2 : ℚ),
      (tradeOk.main_exit_time, tradeOk.main_exit_reason) =
        ((calculate_trailing_exits ((get_option_data dsOk next_date (some atm_strike)
            (some instrument_type)).filter
              (fun r => strLe r.time defaultConfig.exit_time)) p1 true).1,
         (calculate_trailing_exits ((get_option_data dsOk next_date (some atm_strike)
            (some instrument_type)).filter
              (fun r => strLe r.time defaultConfig.exit_time)) p1 true).2.2) ∧
      (tradeOk.hedge_exit_time, tradeOk.hedge_exit_reason) =
        ((calculate_trailing_exits ((get_option_data dsOk next_date (some hedge_strike)
            (some instrument_type)).filter
              (fun r => strLe r.time defaultConfig.exit_time)) p2 false).1,
         (calculate_trailing_exits ((get_option_data dsOk next_date (some hedge_strike)
            (some instrument_type)).filter
              (fun r => strLe r.time defaultConfig.exit_time)) p2 false).2.2) :=
  have h := claim_C1_amended_policyB_only defaultConfig dsOk "01012024" tradeOk
    execute_trade_dsOk_eq
  ⟨h.1 trigSeries quietSeries 1 1, h.2⟩
